import Mathlib

/-!
Shallow embedding of the `wa-auth-store` hybrid credential cache:
the Redis adapter (FastStore), the ORM adapter (DurableStore), the
`BaileysAuthStore` orchestrator (HybridCache) and the
`RedisMemoryManager` (EvictionManager), together with theorems checking
the natural-language specification against this embedding.

Modelling conventions:
- JavaScript values that flow through the store are modelled by `JsValue`
  (the JSON fragment: null, booleans, integers, strings, objects).  The
  source serializes values with `JSON.stringify` (with `BufferJSON.replacer`,
  which is the identity on buffer-free values) before writing them to Redis
  and parses them with `JSON.parse` on read; on this fragment
  parse-after-stringify is the identity, so the model stores the `JsValue`
  itself and, wherever the source tests the truthiness of a *stored string*,
  the model tests `stringifyJson v` against the empty string.
- Redis state is a pair of insertion-ordered association lists: plain
  string keys and hash keys.
- Async calls are sequential in the source (`await`); the model passes
  state explicitly.  Where a claim concerns a thrown adapter error, the
  adapter call is given a boolean fault flag: `false` means the call throws
  (modelled as effect-free) and the exception propagates, aborting the
  remaining statements of the caller, which matches the try-free control
  flow of the source.
-/

/-- JavaScript values restricted to the JSON fragment handled by the store. -/
inductive JsValue where
  | vNull : JsValue
  | vBool : Bool → JsValue
  | vNum : Int → JsValue
  | vStr : String → JsValue
  | vObj : List (String × JsValue) → JsValue

/-- JavaScript truthiness of a value: `null`, `false`, `0` and `""` are
falsy; every object (even empty) is truthy. -/
def JsValue.truthy : JsValue → Bool
  | .vNull => false
  | .vBool b => b
  | .vNum n => n != 0
  | .vStr s => s ≠ ""
  | .vObj _ => true

mutual
/-- Model of `JSON.stringify` on the modelled fragment (escaping of quotes inside
strings is not modelled; only emptiness of the result is ever inspected). -/
def stringifyJson : JsValue → String
  | .vNull => "null"
  | .vBool b => if b then "true" else "false"
  | .vNum n => toString n
  | .vStr s => "\x22" ++ s ++ "\x22"
  | .vObj fs => "\x7b" ++ stringifyFields fs ++ "\x7d"

def stringifyFields : List (String × JsValue) → String
  | [] => ""
  | (k, v) :: rest =>
      "\x22" ++ k ++ "\x22:" ++ stringifyJson v ++
        (if rest.isEmpty then "" else "," ++ stringifyFields rest)
end

/-- Truthiness of the string obtained by serializing a stored value; this is
what `if (credsData)` / `if (value && typeof value === 'string')` test on the
strings Redis returns. -/
def serializedTruthy : Option JsValue → Bool
  | none => false
  | some v => stringifyJson v ≠ ""

/-- An insertion-ordered association map (JS `Map` / plain object
semantics): `set` updates in place or appends, `delete` removes. -/
abbrev JMap (α : Type) := List (String × α)

def jmGet {α : Type} (l : JMap α) (k : String) : Option α :=
  (List.find? (fun p => p.1 == k) l).map (·.2)

def jmHas {α : Type} (l : JMap α) (k : String) : Bool :=
  (jmGet l k).isSome

def jmSet {α : Type} (l : JMap α) (k : String) (v : α) : JMap α :=
  if jmHas l k then
    List.map (fun p => if p.1 == k then (k, v) else p) l
  else
    l ++ [(k, v)]

def jmDel {α : Type} (l : JMap α) (k : String) : JMap α :=
  List.filter (fun p => p.1 != k) l

/-- The Redis database: plain string keys and hash keys.  A stored entry
`(k, v)` in `kv` models the real pair `(k, stringifyJson v)`; a hash field
`(f, v)` models `(f, stringifyJson v)`. -/
structure RedisState where
  kv : JMap JsValue
  hs : JMap (JMap JsValue)

namespace RedisState

def get (st : RedisState) (k : String) : Option JsValue := jmGet st.kv k

def set (st : RedisState) (k : String) (v : JsValue) : RedisState :=
  { st with kv := jmSet st.kv k v }

/-- Model of `redis.del(k)`: removes the key whatever its type. -/
def del (st : RedisState) (k : String) : RedisState :=
  { kv := jmDel st.kv k, hs := jmDel st.hs k }

def hgetall (st : RedisState) (k : String) : JMap JsValue :=
  (jmGet st.hs k).getD []

def hget (st : RedisState) (k f : String) : Option JsValue :=
  jmGet (st.hgetall k) f

/-- Model of `redis.hset(k, fieldsObj)`: every field of the object is written. -/
def hset (st : RedisState) (k : String) (fields : JMap JsValue) : RedisState :=
  { st with hs := jmSet st.hs k (fields.foldl (fun h p => jmSet h p.1 p.2) (st.hgetall k)) }

def hdel (st : RedisState) (k : String) (fs : List String) : RedisState :=
  { st with hs := jmSet st.hs k (fs.foldl (fun h f => jmDel h f) (st.hgetall k)) }

end RedisState

/-- Model of `Partial<BaileysCredential>` as it flows through the store.  The
`createdAt`/`updatedAt` bookkeeping columns are not modelled (no claim
inspects them); `none` is a missing/undefined property. -/
structure Credential where
  creds : Option JsValue
  keys : Option (JMap JsValue)

/-- src/utils/index.ts: key names used by the Redis adapter. -/
def getRedisKeyWhatsapp (sessionId : String) : String × String :=
  ("wa:auth:" ++ sessionId ++ ":creds", "wa:auth:" ++ sessionId ++ ":keys")

namespace BaileysRedisAdapter

/-- Model of `BaileysRedisAdapter.saveCreds`.  The `ttl` option only chooses
`setex`/`expire` over plain writes; expiry is time-driven behaviour outside
this state model, so both branches write the same data. -/
def saveCreds (st : RedisState) (sessionId : String) (credential : Credential) :
    RedisState :=
  let credsKey := (getRedisKeyWhatsapp sessionId).1
  let keysKey := (getRedisKeyWhatsapp sessionId).2
  let st1 :=
    match credential.creds with
    | some c => if c.truthy then st.set credsKey c else st
    | none => st
  match credential.keys with
  | some ks => if ks.isEmpty then st1 else st1.hset keysKey ks
  | none => st1

/-- Model of `BaileysRedisAdapter.getCreds`. -/
def getCreds (st : RedisState) (sessionId : String) : Option Credential :=
  let credsKey := (getRedisKeyWhatsapp sessionId).1
  let keysKey := (getRedisKeyWhatsapp sessionId).2
  let credsData := st.get credsKey
  let keysData := st.hgetall keysKey
  if ¬ serializedTruthy credsData ∧ keysData.isEmpty then
    none
  else
    some
      { creds := if serializedTruthy credsData then credsData else none,
        keys := if keysData.isEmpty then none else some keysData }

/-- Model of `BaileysRedisAdapter.deleteCreds` (`redis.del(credsKey, keysKey)`). -/
def deleteCreds (st : RedisState) (sessionId : String) : RedisState :=
  let credsKey := (getRedisKeyWhatsapp sessionId).1
  let keysKey := (getRedisKeyWhatsapp sessionId).2
  (st.del credsKey).del keysKey

/-- Model of `BaileysRedisAdapter.getKeys`: `hmget` of `type-id` fields; an id is
included exactly when the returned string is truthy. -/
def getKeys (st : RedisState) (sessionId ty : String) (ids : List String) :
    JMap JsValue :=
  if ids.isEmpty then []
  else
    let keysKey := (getRedisKeyWhatsapp sessionId).2
    (ids.filterMap fun id =>
      let value := st.hget keysKey (ty ++ "-" ++ id)
      if serializedTruthy value then value.map (fun v => (id, v)) else none)

/-- Model of `BaileysRedisAdapter.setKeys`: truthy values are collected into one
`hset`, falsy values are `hdel`-ed immediately during the loop. -/
def setKeys (st : RedisState) (sessionId : String)
    (data : JMap (JMap JsValue)) : RedisState :=
  let keysKey := (getRedisKeyWhatsapp sessionId).2
  let step := data.foldl
    (fun (acc : RedisState × JMap JsValue) cat =>
      cat.2.foldl
        (fun (acc : RedisState × JMap JsValue) idv =>
          let field := cat.1 ++ "-" ++ idv.1
          if idv.2.truthy then (acc.1, jmSet acc.2 field idv.2)
          else (acc.1.hdel keysKey [field], acc.2))
        acc)
    (st, ([] : JMap JsValue))
  if step.2.isEmpty then step.1 else step.1.hset keysKey step.2

/-- Model of `BaileysRedisAdapter.deleteKeys`. -/
def deleteKeys (st : RedisState) (sessionId : String) (fields : List String) :
    RedisState :=
  let keysKey := (getRedisKeyWhatsapp sessionId).2
  if fields.isEmpty then st else st.hdel keysKey fields

/-- Model of `BaileysRedisAdapter.clearSession`: delegates to `deleteCreds`. -/
def clearSession (st : RedisState) (sessionId : String) : RedisState :=
  deleteCreds st sessionId

end BaileysRedisAdapter

/-- A database row of the credential entity (`sessionId` column is the map
key; `createdAt`/`updatedAt` are not modelled). -/
structure OrmRow where
  creds : Option JsValue
  keys : Option (JMap JsValue)

/-- The persistent database: rows keyed by `sessionId`. -/
structure OrmState where
  rows : JMap OrmRow

/-- Model of `getParseData` / `getStringifyData`: they compose `JSON.parse` after
`JSON.stringify` (with the `BufferJSON` replacer/reviver, identity on
buffer-free values), which is the identity on the modelled JSON fragment. -/
def getParseData (v : JsValue) : JsValue := v

namespace BaileysOrmAdapter

/-- Model of `BaileysOrmAdapter.saveCreds`: find-or-create the row, overwrite
whichever slots are present (a `!== undefined` test, not truthiness),
then `persistAndFlush` unconditionally. -/
def saveCreds (st : OrmState) (sessionId : String) (credential : Credential) :
    OrmState :=
  let row := (jmGet st.rows sessionId).getD { creds := none, keys := none }
  let row1 :=
    match credential.creds with
    | some c => { row with creds := some (getParseData c) }
    | none => row
  let row2 :=
    match credential.keys with
    | some ks => { row1 with keys := some (ks.map fun p => (p.1, getParseData p.2)) }
    | none => row1
  { rows := jmSet st.rows sessionId row2 }

/-- Model of `BaileysOrmAdapter.getCreds`: a missing row is `null`; an existing row
always yields an object whose `creds`/`keys` default to empty objects
(`if (!row.creds) return \x7b\x7d`, and `row.keys` is patched to an empty
object before the result is built). -/
def getCreds (st : OrmState) (sessionId : String) : Option Credential :=
  match jmGet st.rows sessionId with
  | none => none
  | some row =>
      some
        { creds := some
            (match row.creds with
             | some c => if c.truthy then getParseData c else JsValue.vObj []
             | none => JsValue.vObj []),
          keys := some (row.keys.getD []) }

/-- Model of `BaileysOrmAdapter.deleteCreds` (`nativeDelete` by sessionId). -/
def deleteCreds (st : OrmState) (sessionId : String) : OrmState :=
  { rows := jmDel st.rows sessionId }

/-- Model of `BaileysOrmAdapter.getKeys`: looks up `type-id` fields in the row's
keys object; only truthy values are included. -/
def getKeys (st : OrmState) (sessionId ty : String) (ids : List String) :
    JMap JsValue :=
  match jmGet st.rows sessionId with
  | none => []
  | some row =>
      match row.keys with
      | none => []
      | some ks =>
          ids.filterMap fun id =>
            match jmGet ks (ty ++ "-" ++ id) with
            | some v => if v.truthy then some (id, getParseData v) else none
            | none => none

/-- Model of `BaileysOrmAdapter.setKeys`: find-or-create the row, merge truthy
values into the keys object, delete fields mapped to falsy values,
persist. -/
def setKeys (st : OrmState) (sessionId : String) (data : JMap (JMap JsValue)) :
    OrmState :=
  let row := (jmGet st.rows sessionId).getD { creds := none, keys := none }
  let currentKeys := data.foldl
    (fun ck cat =>
      cat.2.foldl
        (fun ck idv =>
          let field := cat.1 ++ "-" ++ idv.1
          if idv.2.truthy then jmSet ck field idv.2 else jmDel ck field)
        ck)
    (row.keys.getD [])
  { rows := jmSet st.rows sessionId { row with keys := some currentKeys } }

/-- Model of `BaileysOrmAdapter.deleteKeys`. -/
def deleteKeys (st : OrmState) (sessionId : String) (fields : List String) :
    OrmState :=
  match jmGet st.rows sessionId with
  | none => st
  | some row =>
      match row.keys with
      | none => st
      | some ks =>
          { rows := jmSet st.rows sessionId
              { row with keys := some (fields.foldl jmDel ks) } }

/-- Model of `BaileysOrmAdapter.clearSession`: delegates to `deleteCreds`. -/
def clearSession (st : OrmState) (sessionId : String) : OrmState :=
  deleteCreds st sessionId

/-- Model of `BaileysOrmAdapter.clearAll` (`nativeDelete` all rows). -/
def clearAll (_st : OrmState) : OrmState :=
  { rows := [] }

end BaileysOrmAdapter

/-- Which of the two stores raised the error that a hybrid operation
propagated. -/
inductive FailSide where
  | fast : FailSide
  | durable : FailSide
deriving DecidableEq, Repr

/-- State of a `BaileysAuthStore`: the Redis database plus, when the
optional ORM adapter was passed at construction, the ORM database. -/
structure StoreState where
  redis : RedisState
  orm : Option OrmState

namespace BaileysAuthStore

/-- Model of `BaileysAuthStore.getCreds`: Redis first; on a miss (and only when the
ORM adapter is configured) read the database, and on a database hit warm
Redis with the record before returning it. -/
def getCreds (st : StoreState) (sessionId : String) :
    StoreState × Option Credential :=
  match BaileysRedisAdapter.getCreds st.redis sessionId with
  | some credential => (st, some credential)
  | none =>
      match st.orm with
      | none => (st, none)
      | some o =>
          match BaileysOrmAdapter.getCreds o sessionId with
          | none => (st, none)
          | some credential =>
              ({ st with
                  redis := BaileysRedisAdapter.saveCreds st.redis sessionId credential },
                some credential)

/-- Model of `BaileysAuthStore.saveCreds` with fault injection: `redisOk = false`
means the Redis write throws (the ORM write is then never reached);
`ormOk = false` means the ORM write throws after the Redis write
succeeded.  The returned `Option FailSide` is the propagated exception. -/
def saveCreds (redisOk ormOk : Bool) (st : StoreState) (sessionId : String)
    (credential : Credential) (syncToDatabase : Option Bool) :
    StoreState × Option FailSide :=
  if ¬ redisOk then (st, some .fast)
  else
    let st1 := { st with
      redis := BaileysRedisAdapter.saveCreds st.redis sessionId credential }
    if syncToDatabase ≠ some false then
      match st1.orm with
      | some o =>
          if ¬ ormOk then (st1, some .durable)
          else
            ({ st1 with orm := some (BaileysOrmAdapter.saveCreds o sessionId credential) },
              none)
      | none => (st1, none)
    else (st1, none)

/-- Model of `BaileysAuthStore.deleteCreds` with fault injection (same conventions
as `saveCreds`): Redis delete first, then — only if it did not throw —
the ORM delete. -/
def deleteCreds (redisOk ormOk : Bool) (st : StoreState) (sessionId : String) :
    StoreState × Option FailSide :=
  if ¬ redisOk then (st, some .fast)
  else
    let st1 := { st with
      redis := BaileysRedisAdapter.deleteCreds st.redis sessionId }
    match st1.orm with
    | some o =>
        if ¬ ormOk then (st1, some .durable)
        else ({ st1 with orm := some (BaileysOrmAdapter.deleteCreds o sessionId) }, none)
    | none => (st1, none)

/-- JS object spread `\x7b...a, ...b\x7d`: keys of `a` in order (values
overridden by `b` where present), then keys of `b` not in `a`. -/
def jsSpread (a b : JMap JsValue) : JMap JsValue :=
  (a.map fun p => match jmGet b p.1 with | some v => (p.1, v) | none => p) ++
    b.filter (fun q => ¬ jmHas a q.1)

/-- Model of `BaileysAuthStore.getKeys`: Redis first; ids missing there are
batch-fetched from the database and, if any were found, written back into
Redis via the adapter's `setKeys` (which touches only the hash key). -/
def getKeys (st : StoreState) (sessionId ty : String) (ids : List String) :
    StoreState × JMap JsValue :=
  let result := BaileysRedisAdapter.getKeys st.redis sessionId ty ids
  let missing := ids.filter (fun id => ¬ jmHas result id)
  if ¬ missing.isEmpty then
    match st.orm with
    | some o =>
        let dbResult := BaileysOrmAdapter.getKeys o sessionId ty missing
        let st1 :=
          if ¬ dbResult.isEmpty then
            { st with
                redis := BaileysRedisAdapter.setKeys st.redis sessionId [(ty, dbResult)] }
          else st
        (st1, jsSpread result dbResult)
    | none => (st, result)
  else (st, result)

/-- Model of `BaileysAuthStore.setKeys`. -/
def setKeys (st : StoreState) (sessionId : String) (data : JMap (JMap JsValue)) :
    StoreState :=
  let st1 := { st with redis := BaileysRedisAdapter.setKeys st.redis sessionId data }
  match st1.orm with
  | some o => { st1 with orm := some (BaileysOrmAdapter.setKeys o sessionId data) }
  | none => st1

/-- Model of `BaileysAuthStore.deleteKeys`. -/
def deleteKeys (st : StoreState) (sessionId : String) (fields : List String) :
    StoreState :=
  let st1 := { st with redis := BaileysRedisAdapter.deleteKeys st.redis sessionId fields }
  match st1.orm with
  | some o => { st1 with orm := some (BaileysOrmAdapter.deleteKeys o sessionId fields) }
  | none => st1

/-- Model of `BaileysAuthStore.clearSession`. -/
def clearSession (st : StoreState) (sessionId : String) : StoreState :=
  let st1 := { st with redis := BaileysRedisAdapter.clearSession st.redis sessionId }
  match st1.orm with
  | some o => { st1 with orm := some (BaileysOrmAdapter.clearSession o sessionId) }
  | none => st1

/-- Model of `BaileysAuthStore.clearAll`: Redis is intentionally left untouched;
only the database is cleared, and only when the adapter is configured. -/
def clearAll (st : StoreState) : StoreState :=
  match st.orm with
  | some o => { st with orm := some (BaileysOrmAdapter.clearAll o) }
  | none => st

/-- Model of `BaileysAuthStore.syncRedisToDatabase`: throws when no ORM adapter is
configured; otherwise a placeholder no-op. -/
def syncRedisToDatabase (st : StoreState) : Except String Unit :=
  match st.orm with
  | none => .error "ORM adapter is not configured"
  | some _ => .ok ()

end BaileysAuthStore

/-- Model of `SessionAccessMetadata` (src/types): one tracked entry per session. -/
structure SessionAccessMetadata where
  sessionId : String
  lastAccess : Int
  accessCount : Nat
  estimatedSize : Nat
deriving DecidableEq, Repr

/-- Model of `Required<RedisMemoryConfig>` after the constructor fills defaults.
`maxMemoryBytes` and `evictionThreshold` are JS numbers used in exact
division/comparison, modelled as rationals. -/
structure RedisMemoryConfig where
  maxMemoryBytes : ℚ
  evictionThreshold : ℚ
  ttlInactivity : Int
  checkIntervalMs : Int
deriving DecidableEq, Repr

/-- The constructor's defaults: 1 GiB, 80 percent, 7 days, 5 minutes. -/
def defaultRedisMemoryConfig : RedisMemoryConfig :=
  { maxMemoryBytes := 1024 * 1024 * 1024,
    evictionThreshold := 80,
    ttlInactivity := 7 * 24 * 60 * 60,
    checkIntervalMs := 5 * 60 * 1000 }

/-- Result shape of `RedisMemoryManager.getMemoryUsage`. -/
structure MemoryUsage where
  usedBytes : ℚ
  maxBytes : ℚ
  percentUsed : ℚ
deriving DecidableEq, Repr

namespace RedisMemoryManager

/-- The private `getRedisKeys` of `RedisMemoryManager` — note the key
names differ from `getRedisKeyWhatsapp`, which the adapters use. -/
def getRedisKeys (sessionId : String) : String × String :=
  ("wa_creds:" ++ sessionId, "wa_keys:" ++ sessionId)

/-- Model of `RedisMemoryManager.getMemoryUsage`.  Here `memInfo` is the outcome of the
`redis.info('memory')` round trip: `some used` is a successful reading of
`used_memory`, `none` is a thrown transient error, which the method
catches, logs, and converts into a zero reading. -/
def getMemoryUsage (config : RedisMemoryConfig) (memInfo : Option Nat) :
    MemoryUsage :=
  match memInfo with
  | some used =>
      { usedBytes := used,
        maxBytes := config.maxMemoryBytes,
        percentUsed := (used : ℚ) / config.maxMemoryBytes * 100 }
  | none =>
      { usedBytes := 0,
        maxBytes := config.maxMemoryBytes,
        percentUsed := 0 }

/-- Model of `RedisMemoryManager.evictSession` on the shared Redis instance and the
in-memory metadata map: deletes the two manager-named session keys from
Redis and removes the session from the metadata map.  It never touches the
database. -/
def evictSession (redis : RedisState) (md : JMap SessionAccessMetadata)
    (sessionId : String) : RedisState × JMap SessionAccessMetadata :=
  let ks := getRedisKeys sessionId
  (((redis.del ks.1).del ks.2), jmDel md sessionId)

/-- Stable insertion of `x` after all already-placed elements `y` with
`le y x`. -/
def insertStable {α : Type} (le : α → α → Bool) (x : α) : List α → List α
  | [] => [x]
  | y :: ys => if le y x then y :: insertStable le x ys else x :: y :: ys

/-- Stable sort by a total boolean preorder (`Array.prototype.sort` is
stable, and any two stable sorts under the same comparator agree). -/
def stableSortBy {α : Type} (le : α → α → Bool) (l : List α) : List α :=
  l.foldl (fun acc x => insertStable le x acc) []

/-- The comparator of `evictLRU`: `(a, b) => a.lastAccess - b.lastAccess`,
i.e. ascending by `lastAccess` alone. -/
def lruLe (a b : SessionAccessMetadata) : Bool :=
  a.lastAccess ≤ b.lastAccess

/-- Model of `Array.from(values()).sort((a, b) => a.lastAccess - b.lastAccess)`:
metadata values in map insertion order, stably sorted by `lastAccess`. -/
def sortedSessions (md : JMap SessionAccessMetadata) :
    List SessionAccessMetadata :=
  stableSortBy lruLe (md.map (·.2))

/-- The eviction loop of `evictLRU` over an already-sorted candidate list:
before each eviction the memory usage is re-queried (`memSeq k` is the
outcome of the `k`-th query inside the loop), and the loop stops as soon
as usage is at most `evictionThreshold - 10` or the list is exhausted. -/
def evictLoop (config : RedisMemoryConfig) (memSeq : Nat → Option Nat) :
    List SessionAccessMetadata → Nat → RedisState × JMap SessionAccessMetadata →
    RedisState × JMap SessionAccessMetadata
  | [], _, s => s
  | m :: rest, k, s =>
      if (getMemoryUsage config (memSeq k)).percentUsed ≤ config.evictionThreshold - 10 then
        s
      else
        evictLoop config memSeq rest (k + 1) (evictSession s.1 s.2 m.sessionId)

/-- Model of `RedisMemoryManager.evictLRU`. -/
def evictLRU (config : RedisMemoryConfig) (memSeq : Nat → Option Nat)
    (redis : RedisState) (md : JMap SessionAccessMetadata) :
    RedisState × JMap SessionAccessMetadata :=
  evictLoop config memSeq (sortedSessions md) 0 (redis, md)

/-- Model of `RedisMemoryManager.evictInactive`: every tracked session whose
`now - lastAccess` exceeds `ttlInactivity * 1000` is evicted, regardless
of memory pressure. -/
def evictInactive (config : RedisMemoryConfig) (now : Int)
    (redis : RedisState) (md : JMap SessionAccessMetadata) :
    RedisState × JMap SessionAccessMetadata :=
  md.foldl
    (fun s entry =>
      if now - entry.2.lastAccess > config.ttlInactivity * 1000 then
        evictSession s.1 s.2 entry.1
      else s)
    (redis, md)

/-- Model of `RedisMemoryManager.checkAndEvict`: one sweep.  `memSeq 0` is the
initial memory query; queries inside `evictLRU` consume `memSeq (k+1)`. -/
def checkAndEvict (config : RedisMemoryConfig) (memSeq : Nat → Option Nat)
    (now : Int) (redis : RedisState) (md : JMap SessionAccessMetadata) :
    RedisState × JMap SessionAccessMetadata :=
  let memory := getMemoryUsage config (memSeq 0)
  let s1 :=
    if memory.percentUsed > config.evictionThreshold then
      evictLRU config (fun k => memSeq (k + 1)) redis md
    else (redis, md)
  evictInactive config now s1.1 s1.2

end RedisMemoryManager

/-- The candidate ordering that claim C3 reads from the spec: ascending by
`lastAccessUnixMillis`, ties broken by lowest `accessCount` and then by
key.  Written from the spec's words, to be compared with the source's
`sortedSessions`. -/
def specSortCandidates (md : JMap SessionAccessMetadata) :
    List SessionAccessMetadata :=
  RedisMemoryManager.stableSortBy
    (fun a b =>
      a.lastAccess < b.lastAccess ∨
        (a.lastAccess = b.lastAccess ∧
          (a.accessCount < b.accessCount ∨
            (a.accessCount = b.accessCount ∧ a.sessionId ≤ b.sessionId))))
    (md.map (·.2))

/-- The LRU eviction step as claim C3 states it: the same
re-check-then-evict loop, but over the spec's tie-broken ordering. -/
def specEvictLRU (config : RedisMemoryConfig) (memSeq : Nat → Option Nat)
    (redis : RedisState) (md : JMap SessionAccessMetadata) :
    RedisState × JMap SessionAccessMetadata :=
  RedisMemoryManager.evictLoop config memSeq (specSortCandidates md) 0 (redis, md)




section MapLemmas

variable {α : Type}

theorem jmGet_cons (p : String × α) (l : JMap α) (k : String) :
    jmGet (p :: l) k = cond (p.1 == k) (some p.2) (jmGet l k) := by
  unfold jmGet
  rw [List.find?_cons]
  cases p.1 == k <;> simp

theorem jmHas_cons (p : String × α) (l : JMap α) (k : String) :
    jmHas (p :: l) k = ((p.1 == k) || jmHas l k) := by
  unfold jmHas
  rw [jmGet_cons]
  cases p.1 == k <;> simp

theorem jmGet_append (a b : JMap α) (k : String) :
    jmGet (a ++ b) k = (jmGet a k).or (jmGet b k) := by
  unfold jmGet
  rw [List.find?_append]
  cases List.find? (fun p => p.1 == k) a <;> simp [Option.or]

theorem jmSet_cons_ne (p : String × α) (l : JMap α) (k : String) (v : α)
    (h : (p.1 == k) = false) :
    jmSet (p :: l) k v = p :: jmSet l k v := by
  have hhas : jmHas (p :: l) k = jmHas l k := by
    rw [jmHas_cons, h, Bool.false_or]
  by_cases h2 : jmHas l k
  · simp only [jmSet, hhas, h2, if_true, List.map_cons, h, cond_false, Bool.false_eq_true,
      if_false]
  · simp only [Bool.not_eq_true] at h2
    simp only [jmSet, hhas, h2, Bool.false_eq_true, if_false, List.cons_append]

theorem jmGet_jmSet_self (l : JMap α) (k : String) (v : α) :
    jmGet (jmSet l k v) k = some v := by
  induction l with
  | nil => simp [jmSet, jmHas, jmGet]
  | cons p l ih =>
      by_cases h : p.1 == k
      · have hhas : jmHas (p :: l) k = true := by rw [jmHas_cons, h, Bool.true_or]
        simp only [jmSet, hhas, if_true, List.map_cons, h, if_true]
        rw [jmGet_cons]
        simp only [BEq.refl, cond_true]
      · simp only [Bool.not_eq_true] at h
        rw [jmSet_cons_ne p l k v h, jmGet_cons, h, cond_false]
        exact ih

theorem jmGet_map_update (l : JMap α) (k : String) (v : α) (k' : String)
    (h : k' ≠ k) :
    jmGet (List.map (fun p => if p.1 == k then (k, v) else p) l) k' = jmGet l k' := by
  have hkk : (k == k') = false := beq_eq_false_iff_ne.mpr (Ne.symm h)
  induction l with
  | nil => rfl
  | cons p l ih =>
      simp only [List.map_cons]
      by_cases hpk : p.1 == k
      · have hp1 : p.1 = k := by simpa using hpk
        rw [if_pos hpk, jmGet_cons, jmGet_cons]
        show cond ((k, v).1 == k') (some (k, v).2) _ = _
        rw [show ((k, v).1 == k') = false from hkk, hp1, hkk, cond_false, cond_false]
        exact ih
      · simp only [Bool.not_eq_true] at hpk
        rw [if_neg (by simp [hpk]), jmGet_cons, jmGet_cons]
        cases hp' : p.1 == k'
        · rw [cond_false, cond_false]
          exact ih
        · rw [cond_true, cond_true]

theorem jmGet_jmSet_ne (l : JMap α) (k : String) (v : α) (k' : String)
    (h : k' ≠ k) :
    jmGet (jmSet l k v) k' = jmGet l k' := by
  have hkk : (k == k') = false := beq_eq_false_iff_ne.mpr (Ne.symm h)
  unfold jmSet
  by_cases hhas : jmHas l k
  · simp only [hhas, if_true]
    exact jmGet_map_update l k v k' h
  · simp only [hhas, Bool.false_eq_true, if_false]
    rw [jmGet_append]
    rw [show jmGet [(k, v)] k' = none by
      unfold jmGet
      simp [List.find?_cons, hkk]]
    cases jmGet l k' <;> rfl

theorem jmGet_jmDel_self (l : JMap α) (k : String) :
    jmGet (jmDel l k) k = none := by
  induction l with
  | nil => rfl
  | cons p l ih =>
      cases hpk : p.1 == k
      · have hb : (p.1 != k) = true := by simp [bne, hpk]
        unfold jmDel at ih ⊢
        rw [List.filter_cons, if_pos hb, jmGet_cons, hpk, cond_false]
        exact ih
      · have hb : (p.1 != k) = false := by simp [bne, hpk]
        unfold jmDel at ih ⊢
        rw [List.filter_cons, if_neg (by simp [hb])]
        exact ih

theorem jmGet_jmDel_ne (l : JMap α) (k k' : String) (h : k' ≠ k) :
    jmGet (jmDel l k) k' = jmGet l k' := by
  induction l with
  | nil => rfl
  | cons p l ih =>
      cases hpk : p.1 == k
      · have hb : (p.1 != k) = true := by simp [bne, hpk]
        unfold jmDel at ih ⊢
        rw [List.filter_cons, if_pos hb, jmGet_cons, jmGet_cons]
        cases hp' : p.1 == k'
        · rw [cond_false, cond_false]
          exact ih
        · rw [cond_true, cond_true]
      · have hb : (p.1 != k) = false := by simp [bne, hpk]
        have hp1 : p.1 = k := by simpa using hpk
        have hp' : (p.1 == k') = false := by
          rw [hp1]
          exact beq_eq_false_iff_ne.mpr (Ne.symm h)
        unfold jmDel at ih ⊢
        rw [List.filter_cons, if_neg (by simp [hb]), jmGet_cons, hp', cond_false]
        exact ih

end MapLemmas

/-! Concrete fixtures used by witnesses and counterexamples. -/

/-- A database holding a record for session `"s"`. -/
def ormFix : OrmState := { rows := [("s", { creds := some (.vStr "c"), keys := none })] }

/-- A hybrid store with an empty Redis and `ormFix` as database. -/
def storeFix : StoreState := { redis := { kv := [], hs := [] }, orm := some ormFix }

/-- The credential `ormFix` yields for `"s"` through the ORM adapter. -/
def credFix : Credential := { creds := some (.vStr "c"), keys := some [] }

/-- A credential used as a write payload. -/
def credFix2 : Credential := { creds := some (.vStr "c2"), keys := none }

/-- A hybrid store constructed without the optional ORM adapter. -/
def storeNoOrm : StoreState :=
  { redis := { kv := [("wa:auth:s:creds", .vStr "c")], hs := [] }, orm := none }

/-- Claim C2: for every key, `get` on a FastStore miss reads DurableStore;
if DurableStore has the record it is written back into FastStore (cache
warm) within the same call and returned; if neither store has the key,
`get` returns absent and raises no error. -/
theorem C2_getCreds_miss_reads_durable_and_warms
    (st : StoreState) (sessionId : String) (o : OrmState)
    (hmiss : BaileysRedisAdapter.getCreds st.redis sessionId = none)
    (horm : st.orm = some o) :
    (∀ c, BaileysOrmAdapter.getCreds o sessionId = some c →
        BaileysAuthStore.getCreds st sessionId =
          ({ st with redis := BaileysRedisAdapter.saveCreds st.redis sessionId c },
            some c)) ∧
    (BaileysOrmAdapter.getCreds o sessionId = none →
        BaileysAuthStore.getCreds st sessionId = (st, none)) := by
  constructor
  · intro c hc
    simp [BaileysAuthStore.getCreds, hmiss, horm, hc]
  · intro hc
    simp [BaileysAuthStore.getCreds, hmiss, horm, hc]

/-- Witness for C2: concrete miss-then-fallback-then-warm run. -/
theorem C2_getCreds_miss_reads_durable_and_warms_witness :
    BaileysRedisAdapter.getCreds storeFix.redis "s" = none ∧
    storeFix.orm = some ormFix ∧
    BaileysOrmAdapter.getCreds ormFix "s" = some credFix ∧
    BaileysAuthStore.getCreds storeFix "s" =
      ({ storeFix with redis := BaileysRedisAdapter.saveCreds storeFix.redis "s" credFix },
        some credFix) :=
  ⟨rfl, rfl, rfl,
    (C2_getCreds_miss_reads_durable_and_warms storeFix "s" ormFix rfl rfl).1 credFix rfl⟩

/-- Counterexample to claim C4: with persist enabled and the DurableStore
write-through throwing after a successful FastStore write, the overall
`set` call does fail — the adapter's exception propagates out of
`saveCreds` (there is no `PartialFailureError` wrapping in the code), and
the database write is never applied. -/
theorem C4_counterexample :
    (BaileysAuthStore.saveCreds true false storeFix "s" credFix2 none).2 =
      some FailSide.durable ∧
    (BaileysAuthStore.saveCreds true false storeFix "s" credFix2 none).1.orm =
      some ormFix :=
  ⟨rfl, rfl⟩

/-- Claim C4 as amended: a FastStore write failure fails the call before
the DurableStore write is attempted; a DurableStore write-through failure
after a successful FastStore write also fails the overall call (the raw
error propagates, with no `PartialFailureError`), but the FastStore write
is not rolled back; when both writes succeed the call returns cleanly. -/
theorem C4_saveCreds_failure_semantics
    (st : StoreState) (o : OrmState) (sessionId : String) (c : Credential)
    (sync : Option Bool) (horm : st.orm = some o) (hsync : sync ≠ some false) :
    BaileysAuthStore.saveCreds false true st sessionId c sync = (st, some .fast) ∧
    BaileysAuthStore.saveCreds true false st sessionId c sync =
      ({ st with redis := BaileysRedisAdapter.saveCreds st.redis sessionId c },
        some .durable) ∧
    BaileysAuthStore.saveCreds true true st sessionId c sync =
      ({ redis := BaileysRedisAdapter.saveCreds st.redis sessionId c,
         orm := some (BaileysOrmAdapter.saveCreds o sessionId c) }, none) := by
  refine ⟨rfl, ?_, ?_⟩ <;>
    simp [BaileysAuthStore.saveCreds, horm, hsync]

/-- Witness for the amended C4 at a concrete store and payload. -/
theorem C4_saveCreds_failure_semantics_witness :
    BaileysAuthStore.saveCreds false true storeFix "s" credFix2 none =
      (storeFix, some .fast) ∧
    BaileysAuthStore.saveCreds true false storeFix "s" credFix2 none =
      ({ storeFix with
          redis := BaileysRedisAdapter.saveCreds storeFix.redis "s" credFix2 },
        some .durable) ∧
    BaileysAuthStore.saveCreds true true storeFix "s" credFix2 none =
      ({ redis := BaileysRedisAdapter.saveCreds storeFix.redis "s" credFix2,
         orm := some (BaileysOrmAdapter.saveCreds ormFix "s" credFix2) }, none) :=
  C4_saveCreds_failure_semantics storeFix ormFix "s" credFix2 none rfl (by decide)

/-- Counterexample to claim C5: when the FastStore deletion throws, the
DurableStore deletion is never attempted (the database still holds the
row afterwards) and the propagated error carries no side information
beyond being the FastStore adapter's own exception. -/
theorem C5_counterexample :
    (BaileysAuthStore.deleteCreds false true storeFix "s").2 = some FailSide.fast ∧
    ((BaileysAuthStore.deleteCreds false true storeFix "s").1.orm.map
        (fun o => jmHas o.rows "s")) = some true :=
  ⟨rfl, rfl⟩

/-- Claim C5 as amended: `delete` is sequential, not best-effort — a
FastStore deletion failure propagates and skips the DurableStore
deletion entirely; a DurableStore failure after a successful FastStore
deletion propagates the raw error (the FastStore deletion is kept); no
`PartialFailureError` is constructed. -/
theorem C5_deleteCreds_failure_semantics
    (st : StoreState) (o : OrmState) (sessionId : String)
    (horm : st.orm = some o) :
    BaileysAuthStore.deleteCreds false true st sessionId = (st, some .fast) ∧
    BaileysAuthStore.deleteCreds true false st sessionId =
      ({ st with redis := BaileysRedisAdapter.deleteCreds st.redis sessionId },
        some .durable) ∧
    BaileysAuthStore.deleteCreds true true st sessionId =
      ({ redis := BaileysRedisAdapter.deleteCreds st.redis sessionId,
         orm := some (BaileysOrmAdapter.deleteCreds o sessionId) }, none) := by
  refine ⟨rfl, ?_, ?_⟩ <;>
    simp [BaileysAuthStore.deleteCreds, horm]

/-- Witness for the amended C5 at a concrete store. -/
theorem C5_deleteCreds_failure_semantics_witness :
    BaileysAuthStore.deleteCreds false true storeFix "s" = (storeFix, some .fast) ∧
    BaileysAuthStore.deleteCreds true false storeFix "s" =
      ({ storeFix with redis := BaileysRedisAdapter.deleteCreds storeFix.redis "s" },
        some .durable) ∧
    BaileysAuthStore.deleteCreds true true storeFix "s" =
      ({ redis := BaileysRedisAdapter.deleteCreds storeFix.redis "s",
         orm := some (BaileysOrmAdapter.deleteCreds ormFix "s") }, none) :=
  C5_deleteCreds_failure_semantics storeFix ormFix "s" rfl

/-- Claim C9: when the store is constructed without the optional ORM
adapter, every public operation except `syncRedisToDatabase` completes
without error against Redis alone — `getCreds` returns the Redis result
directly (absent on a miss, with no fallback attempt), and the
write/delete/clear operations skip the database step — while
`syncRedisToDatabase` raises the adapter-not-configured error. -/
theorem C9_no_orm_operations
    (st : StoreState) (horm : st.orm = none) (sessionId ty : String)
    (ids fields : List String) (c : Credential) (sync : Option Bool)
    (data : JMap (JMap JsValue)) :
    BaileysAuthStore.getCreds st sessionId =
      (st, BaileysRedisAdapter.getCreds st.redis sessionId) ∧
    BaileysAuthStore.saveCreds true true st sessionId c sync =
      ({ st with redis := BaileysRedisAdapter.saveCreds st.redis sessionId c }, none) ∧
    BaileysAuthStore.deleteCreds true true st sessionId =
      ({ st with redis := BaileysRedisAdapter.deleteCreds st.redis sessionId }, none) ∧
    BaileysAuthStore.getKeys st sessionId ty ids =
      (st, BaileysRedisAdapter.getKeys st.redis sessionId ty ids) ∧
    BaileysAuthStore.setKeys st sessionId data =
      { st with redis := BaileysRedisAdapter.setKeys st.redis sessionId data } ∧
    BaileysAuthStore.deleteKeys st sessionId fields =
      { st with redis := BaileysRedisAdapter.deleteKeys st.redis sessionId fields } ∧
    BaileysAuthStore.clearSession st sessionId =
      { st with redis := BaileysRedisAdapter.clearSession st.redis sessionId } ∧
    BaileysAuthStore.clearAll st = st ∧
    BaileysAuthStore.syncRedisToDatabase st =
      .error "ORM adapter is not configured" := by
  refine ⟨?_, ?_, ?_, ?_, ?_, ?_, ?_, ?_, ?_⟩
  · unfold BaileysAuthStore.getCreds
    cases hr : BaileysRedisAdapter.getCreds st.redis sessionId <;> simp [horm]
  · by_cases hsync : sync = some false
    · simp [BaileysAuthStore.saveCreds, horm, hsync]
    · simp [BaileysAuthStore.saveCreds, horm, hsync]
  · simp [BaileysAuthStore.deleteCreds, horm]
  · unfold BaileysAuthStore.getKeys
    by_cases hm :
        (ids.filter
          (fun id => ¬ jmHas (BaileysRedisAdapter.getKeys st.redis sessionId ty ids) id)).isEmpty <;>
      simp [horm, hm]
  · simp [BaileysAuthStore.setKeys, horm]
  · simp [BaileysAuthStore.deleteKeys, horm]
  · simp [BaileysAuthStore.clearSession, horm]
  · simp [BaileysAuthStore.clearAll, horm]
  · simp [BaileysAuthStore.syncRedisToDatabase, horm]

/-- Witness for C9 at a concrete adapter-less store. -/
theorem C9_no_orm_operations_witness :
    storeNoOrm.orm = none ∧
    BaileysAuthStore.getCreds storeNoOrm "s" =
      (storeNoOrm, BaileysRedisAdapter.getCreds storeNoOrm.redis "s") ∧
    BaileysAuthStore.saveCreds true true storeNoOrm "s" credFix2 none =
      ({ storeNoOrm with
          redis := BaileysRedisAdapter.saveCreds storeNoOrm.redis "s" credFix2 }, none) ∧
    BaileysAuthStore.getKeys storeNoOrm "s" "f" ["1"] =
      (storeNoOrm, BaileysRedisAdapter.getKeys storeNoOrm.redis "s" "f" ["1"]) ∧
    BaileysAuthStore.clearAll storeNoOrm = storeNoOrm ∧
    BaileysAuthStore.syncRedisToDatabase storeNoOrm =
      .error "ORM adapter is not configured" := by
  have h := C9_no_orm_operations storeNoOrm rfl "s" "f" ["1"] ["g"] credFix2 none []
  exact ⟨rfl, h.1, h.2.1, h.2.2.2.1, h.2.2.2.2.2.2.2.1, h.2.2.2.2.2.2.2.2⟩

/-- A hybrid store whose database is configured but empty. -/
def storeEmptyOrm : StoreState :=
  { redis := { kv := [], hs := [] }, orm := some { rows := [] } }

/-- The record with both payload slots absent. -/
def emptyCredential : Credential := { creds := none, keys := none }

/-- Counterexample to claim C7: `set` of an empty record (both slots
absent) does create a DurableStore row, and a subsequent `get` of that
key returns a (empty) record rather than absent. -/
theorem C7_counterexample :
    ((BaileysAuthStore.saveCreds true true storeEmptyOrm "s" emptyCredential none).1.orm.map
        (fun o => jmHas o.rows "s")) = some true ∧
    ((BaileysAuthStore.getCreds
        (BaileysAuthStore.saveCreds true true storeEmptyOrm "s" emptyCredential none).1
        "s").2).isSome = true :=
  ⟨rfl, rfl⟩

/-- Claim C7 as amended: in FastStore the invariant holds — saving an
empty record writes nothing and a key with neither blob nor hash fields
reads as absent — but DurableStore `saveCreds` of an empty record does
persist a row, and a hybrid `get` of a key whose row is empty returns an
empty record (empty-object slots) instead of absent. -/
theorem C7_empty_record_semantics
    (rst : RedisState) (o : OrmState) (st : StoreState) (sessionId : String)
    (horm : st.orm = some o)
    (hmiss : BaileysRedisAdapter.getCreds st.redis sessionId = none)
    (hrow : jmGet o.rows sessionId = some { creds := none, keys := none }) :
    BaileysRedisAdapter.saveCreds rst sessionId { creds := none, keys := none } = rst ∧
    jmHas (BaileysOrmAdapter.saveCreds o sessionId { creds := none, keys := none }).rows
      sessionId = true ∧
    (BaileysAuthStore.getCreds st sessionId).2 =
      some { creds := some (JsValue.vObj []), keys := some [] } := by
  refine ⟨rfl, ?_, ?_⟩
  · simp [BaileysOrmAdapter.saveCreds, jmHas, jmGet_jmSet_self]
  · simp [BaileysAuthStore.getCreds, hmiss, horm, BaileysOrmAdapter.getCreds, hrow]

/-- Witness for the amended C7 at a concrete empty row. -/
theorem C7_empty_record_semantics_witness :
    BaileysRedisAdapter.saveCreds { kv := [], hs := [] } "s"
      { creds := none, keys := none } = { kv := [], hs := [] } ∧
    jmHas (BaileysOrmAdapter.saveCreds { rows := [("s", { creds := none, keys := none })] }
      "s" { creds := none, keys := none }).rows "s" = true ∧
    (BaileysAuthStore.getCreds
      { redis := { kv := [], hs := [] },
        orm := some { rows := [("s", { creds := none, keys := none })] } } "s").2 =
      some { creds := some (JsValue.vObj []), keys := some [] } :=
  C7_empty_record_semantics { kv := [], hs := [] }
    { rows := [("s", { creds := none, keys := none })] }
    { redis := { kv := [], hs := [] },
      orm := some { rows := [("s", { creds := none, keys := none })] } }
    "s" rfl rfl rfl

/-- A hybrid store with no database adapter, used to show a falsy field
value entering Redis through a full record write. -/
def storeNoOrmEmpty : StoreState := { redis := { kv := [], hs := [] }, orm := none }

/-- Counterexample to claim C10: a falsy value (here the number 0) placed
into FastStore's field map by a full `set` of the record is returned by
`getFields` — its stored serialization "0" is a non-empty, truthy string
— rather than being omitted. -/
theorem C10_counterexample :
    jmGet (BaileysAuthStore.getKeys
        (BaileysAuthStore.saveCreds true true storeNoOrmEmpty "s"
          { creds := none, keys := some [("f-0", JsValue.vNum 0)] } none).1
        "s" "f" ["0"]).2 "0" = some (JsValue.vNum 0) :=
  rfl

/-- Values reached through a `jmGet` on a `filterMap`-built map inherit
any property the producing function guarantees of its outputs. -/
theorem truthy_of_jmGet_filterMap {f : String → Option (String × JsValue)}
    (ids : List String)
    (hf : ∀ a p, f a = some p → p.2.truthy = true) (k : String) (w : JsValue)
    (h : jmGet (List.filterMap f ids) k = some w) : w.truthy = true := by
  unfold jmGet at h
  obtain ⟨p, hfind, hp2⟩ := Option.map_eq_some'.mp h
  have hmem : p ∈ List.filterMap f ids := List.mem_of_find?_eq_some hfind
  obtain ⟨a, _, hfa⟩ := List.mem_filterMap.mp hmem
  have hp := hf a p hfa
  rw [hp2] at hp
  exact hp

/-- Claim C10 as amended: `setFields` treats every falsy field value
(null, false, 0, the empty string) as a deletion of that field in both
stores; `getFields` omits falsy values when falling back to DurableStore;
but a falsy value already present in FastStore's field map (reachable via
a full `set` of a record, which does not filter falsy field values) is
returned by `getFields`, because the stored serialized string of any
value — falsy ones included — is non-empty and hence truthy. -/
theorem C10_falsy_field_semantics
    (st : StoreState) (o : OrmState) (sessionId cat id : String) (v : JsValue)
    (hfalsy : v.truthy = false) (horm : st.orm = some o) :
    RedisState.hget (BaileysAuthStore.setKeys st sessionId [(cat, [(id, v)])]).redis
      (getRedisKeyWhatsapp sessionId).2 (cat ++ "-" ++ id) = none ∧
    ((BaileysAuthStore.setKeys st sessionId [(cat, [(id, v)])]).orm.map
        (fun o2 => (jmGet o2.rows sessionId).map
          (fun r => jmGet (r.keys.getD []) (cat ++ "-" ++ id)))) = some (some none) ∧
    (∀ sid2 ty2 ids2 id2 w,
        jmGet (BaileysOrmAdapter.getKeys o sid2 ty2 ids2) id2 = some w →
        w.truthy = true) ∧
    serializedTruthy (some .vNull) = true ∧
    serializedTruthy (some (.vBool false)) = true ∧
    serializedTruthy (some (.vNum 0)) = true ∧
    serializedTruthy (some (.vStr "")) = true := by
  refine ⟨?_, ?_, ?_, rfl, rfl, rfl, rfl⟩
  · simp [BaileysAuthStore.setKeys, BaileysRedisAdapter.setKeys, hfalsy, horm,
      RedisState.hget, RedisState.hdel, RedisState.hgetall, jmGet_jmSet_self,
      jmGet_jmDel_self]
  · simp [BaileysAuthStore.setKeys, BaileysOrmAdapter.setKeys, hfalsy, horm,
      BaileysRedisAdapter.setKeys, jmGet_jmSet_self, jmGet_jmDel_self]
  · intro sid2 ty2 ids2 id2 w hw
    cases hrow : jmGet o.rows sid2 with
    | none =>
        simp only [BaileysOrmAdapter.getKeys, hrow] at hw
        exact absurd hw (by simp [jmGet])
    | some row =>
        cases hks : row.keys with
        | none =>
            simp only [BaileysOrmAdapter.getKeys, hrow, hks] at hw
            exact absurd hw (by simp [jmGet])
        | some ks =>
            simp only [BaileysOrmAdapter.getKeys, hrow, hks] at hw
            refine truthy_of_jmGet_filterMap ids2 ?_ id2 w hw
            intro a p hg
            cases hv : jmGet ks (ty2 ++ "-" ++ a) with
            | none =>
                rw [hv] at hg
                exact absurd hg (by simp)
            | some u =>
                rw [hv] at hg
                have hg2 : (if u.truthy then some (a, getParseData u) else none) = some p :=
                  hg
                by_cases hu : u.truthy
                · rw [if_pos hu] at hg2
                  cases hg2
                  exact hu
                · rw [if_neg hu] at hg2
                  exact absurd hg2 (by simp)

/-- A hybrid store holding the field `f-0` on both sides, used to witness
falsy-value deletion through `setFields`. -/
def storeWithField : StoreState :=
  { redis := { kv := [], hs := [("wa:auth:s:keys", [("f-0", .vStr "x")])] },
    orm := some { rows := [("s", { creds := none, keys := some [("f-0", .vStr "x")] })] } }

/-- The database component of `storeWithField`. -/
def ormWithField : OrmState :=
  { rows := [("s", { creds := none, keys := some [("f-0", .vStr "x")] })] }

/-- Witness for the amended C10: the empty string (a falsy value that is
not an absent marker) deletes the field `f-0` on both sides. -/
theorem C10_falsy_field_semantics_witness :
    RedisState.hget (BaileysAuthStore.setKeys storeWithField "s"
        [("f", [("0", JsValue.vStr "")])]).redis
      (getRedisKeyWhatsapp "s").2 ("f" ++ "-" ++ "0") = none ∧
    ((BaileysAuthStore.setKeys storeWithField "s" [("f", [("0", JsValue.vStr "")])]).orm.map
        (fun o2 => (jmGet o2.rows "s").map
          (fun r => jmGet (r.keys.getD []) ("f" ++ "-" ++ "0")))) = some (some none) ∧
    (∀ sid2 ty2 ids2 id2 w,
        jmGet (BaileysOrmAdapter.getKeys ormWithField sid2 ty2 ids2) id2 = some w →
        w.truthy = true) ∧
    serializedTruthy (some .vNull) = true ∧
    serializedTruthy (some (.vBool false)) = true ∧
    serializedTruthy (some (.vNum 0)) = true ∧
    serializedTruthy (some (.vStr "")) = true :=
  C10_falsy_field_semantics storeWithField ormWithField "s" "f" "0" (JsValue.vStr "")
    rfl rfl

section FoldLemmas

theorem string_append_cancel_left {pre a b : String} (h : pre ++ a = pre ++ b) :
    a = b := by
  have hd := congrArg String.data h
  rw [String.data_append, String.data_append] at hd
  exact String.ext (List.append_cancel_left hd)

theorem jmHas_of_mem {α : Type} (l : JMap α) (p : String × α) (hp : p ∈ l) :
    jmHas l p.1 = true := by
  unfold jmHas jmGet
  have hs : (List.find? (fun q => q.1 == p.1) l).isSome := by
    rw [List.find?_isSome]
    exact ⟨p, hp, by simp⟩
  cases hfind : List.find? (fun q => q.1 == p.1) l
  · rw [hfind] at hs
    simp at hs
  · simp

theorem mem_key_of_jmGet {α : Type} (l : JMap α) (k : String) (v : α)
    (h : jmGet l k = some v) : ∃ q ∈ l, q.1 = k ∧ q.2 = v := by
  unfold jmGet at h
  obtain ⟨q, hfind, hq2⟩ := Option.map_eq_some'.mp h
  exact ⟨q, List.mem_of_find?_eq_some hfind, by simpa using List.find?_some hfind, hq2⟩

theorem jmSet_isEmpty_false {α : Type} (l : JMap α) (k : String) (v : α) :
    (jmSet l k v).isEmpty = false := by
  unfold jmSet
  by_cases h : jmHas l k
  · simp only [h, if_true]
    cases l with
    | nil => unfold jmHas jmGet at h; simp at h
    | cons p rest => rfl
  · simp only [h, Bool.false_eq_true, if_false]
    simp

theorem foldl_jmSet_isEmpty_false (κ : String → String) (es : JMap JsValue)
    (m0 : JMap JsValue) (h : es.isEmpty = false) :
    (es.foldl (fun m p => jmSet m (κ p.1) p.2) m0).isEmpty = false := by
  induction es generalizing m0 with
  | nil => simp at h
  | cons p rest ih =>
      rw [List.foldl_cons]
      cases rest with
      | nil => simpa using jmSet_isEmpty_false m0 (κ p.1) p.2
      | cons q qs => exact ih _ rfl

theorem jmGet_foldl_jmSet_key (κ : String → String)
    (hinj : ∀ a b, κ a = κ b → a = b) (es : JMap JsValue)
    (hfun : ∀ p ∈ es, ∀ q ∈ es, p.1 = q.1 → p.2 = q.2) :
    ∀ (m0 : JMap JsValue) (id : String),
      jmGet (es.foldl (fun m p => jmSet m (κ p.1) p.2) m0) (κ id) =
        (jmGet es id).or (jmGet m0 (κ id)) := by
  induction es with
  | nil =>
      intro m0 id
      rw [List.foldl_nil]
      cases jmGet m0 (κ id) <;> rfl
  | cons p rest ih =>
      intro m0 id
      rw [List.foldl_cons]
      have hfun2 : ∀ x ∈ rest, ∀ y ∈ rest, x.1 = y.1 → x.2 = y.2 :=
        fun x hx y hy => hfun x (List.mem_cons_of_mem _ hx) y (List.mem_cons_of_mem _ hy)
      rw [ih hfun2 (jmSet m0 (κ p.1) p.2) id, jmGet_cons]
      cases hpk : p.1 == id
      · have hne : κ id ≠ κ p.1 := by
          intro hh
          have : p.1 = id := (hinj _ _ hh).symm
          simp [this] at hpk
        rw [jmGet_jmSet_ne m0 (κ p.1) p.2 (κ id) hne, cond_false]
      · have hp1 : p.1 = id := by simpa using hpk
        rw [hp1, cond_true, jmGet_jmSet_self]
        cases hrest : jmGet rest id with
        | none => rfl
        | some w =>
            have hw : w = p.2 := by
              obtain ⟨q, hqmem, hq1, hq2⟩ := mem_key_of_jmGet rest id w hrest
              have := hfun q (List.mem_cons_of_mem _ hqmem) p (List.mem_cons_self _ _)
                (by rw [hq1, hp1])
              rw [← hq2, this]
            rw [hw]
            rfl

theorem jmSet_keys_nodup {α : Type} (l : JMap α) (k : String) (v : α)
    (h : (l.map (·.1)).Nodup) : ((jmSet l k v).map (·.1)).Nodup := by
  unfold jmSet
  by_cases hhas : jmHas l k
  · simp only [hhas, if_true]
    have heq : (List.map (fun p => if p.1 == k then (k, v) else p) l).map (·.1) =
        l.map (·.1) := by
      rw [List.map_map]
      refine List.map_congr_left ?_
      intro p _
      cases hpk : p.1 == k
      · have hne : ¬ p.1 = k := by simpa using hpk
        simp [hne]
      · have heq2 : p.1 = k := by simpa using hpk
        simp [heq2]
    rw [heq]
    exact h
  · simp only [hhas, Bool.false_eq_true, if_false]
    rw [List.map_append]
    rw [List.nodup_append]
    refine ⟨h, by simp, ?_⟩
    intro x hx
    obtain ⟨p, hp, hpk⟩ := List.mem_map.mp hx
    simp only [List.map_cons, List.map_nil, List.mem_singleton]
    intro hxk
    apply hhas
    have := jmHas_of_mem l p hp
    rw [hpk, hxk] at this
    exact this

theorem foldl_jmSet_keys_nodup (κ : String → String) (es : JMap JsValue) :
    ∀ m0 : JMap JsValue, ((m0.map (·.1)).Nodup) →
      (((es.foldl (fun m p => jmSet m (κ p.1) p.2) m0)).map (·.1)).Nodup := by
  induction es with
  | nil => intro m0 h; simpa using h
  | cons p rest ih =>
      intro m0 h
      rw [List.foldl_cons]
      exact ih _ (jmSet_keys_nodup m0 (κ p.1) p.2 h)

theorem filterMap_key_mem {f : String → Option (String × JsValue)}
    (hkey : ∀ a r, f a = some r → r.1 = a) (ids : List String)
    (p : String × JsValue) (hp : p ∈ ids.filterMap f) :
    p.1 ∈ ids ∧ f p.1 = some p := by
  obtain ⟨a, ha, hfa⟩ := List.mem_filterMap.mp hp
  have hk := hkey a p hfa
  exact ⟨by rw [hk]; exact ha, by rw [hk]; exact hfa⟩

theorem jsSpread_disjoint (a b : JMap JsValue)
    (hdisj : ∀ q ∈ b, jmHas a q.1 = false) :
    BaileysAuthStore.jsSpread a b = a ++ b := by
  unfold BaileysAuthStore.jsSpread
  have hmap : (a.map fun p => match jmGet b p.1 with | some v => (p.1, v) | none => p) = a := by
    have := List.map_congr_left (l := a)
      (f := fun p => match jmGet b p.1 with | some v => (p.1, v) | none => p) (g := id) ?_
    · rw [this, List.map_id]
    · intro p hp
      cases hq : jmGet b p.1 with
      | none => simp [hq]
      | some v =>
          obtain ⟨q, hqb, hq1, _⟩ := mem_key_of_jmGet b p.1 v hq
          have h1 := hdisj q hqb
          have h2 := jmHas_of_mem a p hp
          rw [hq1] at h1
          rw [h1] at h2
          exact absurd h2 (by simp)
  have hfil : (b.filter fun q => ¬ jmHas a q.1) = b := by
    refine List.filter_eq_self.mpr ?_
    intro q hq
    simp [hdisj q hq]
  rw [hmap, hfil]

end FoldLemmas

/-- Evaluation fact: `BaileysOrmAdapter.getKeys` over no ids yields the empty map. -/
theorem ormGetKeys_nil (o : OrmState) (sid ty : String) :
    BaileysOrmAdapter.getKeys o sid ty [] = [] := by
  unfold BaileysOrmAdapter.getKeys
  split
  · rfl
  · split
    · rfl
    · rfl

/-- Entries of a `BaileysOrmAdapter.getKeys` result: each key is one of
the requested ids, each value is truthy, and the value is a function of
the key. -/
theorem ormGetKeys_mem_spec (o : OrmState) (sid ty : String) (ids : List String) :
    (∀ p ∈ BaileysOrmAdapter.getKeys o sid ty ids, p.1 ∈ ids ∧ p.2.truthy = true) ∧
    (∀ p ∈ BaileysOrmAdapter.getKeys o sid ty ids,
      ∀ q ∈ BaileysOrmAdapter.getKeys o sid ty ids, p.1 = q.1 → p.2 = q.2) := by
  unfold BaileysOrmAdapter.getKeys
  split
  · exact ⟨fun p hp => absurd hp (List.not_mem_nil p),
      fun p hp => absurd hp (List.not_mem_nil p)⟩
  · split
    · exact ⟨fun p hp => absurd hp (List.not_mem_nil p),
        fun p hp => absurd hp (List.not_mem_nil p)⟩
    · rename_i ks hks
      have hkey : ∀ a r,
          (match jmGet ks (ty ++ "-" ++ a) with
            | some v => if v.truthy then some (a, getParseData v) else none
            | none => none) = some r → r.1 = a ∧ r.2.truthy = true := by
        intro a r h
        cases hv : jmGet ks (ty ++ "-" ++ a) with
        | none => rw [hv] at h; exact absurd h (by simp)
        | some u =>
            rw [hv] at h
            have h2 : (if u.truthy then some (a, getParseData u) else none) = some r := h
            by_cases hu : u.truthy
            · rw [if_pos hu] at h2
              cases h2
              exact ⟨rfl, hu⟩
            · rw [if_neg hu] at h2
              exact absurd h2 (by simp)
      constructor
      · intro p hp
        obtain ⟨a, ha, hfa⟩ := List.mem_filterMap.mp hp
        obtain ⟨hk, ht⟩ := hkey a p hfa
        exact ⟨by rw [hk]; exact ha, ht⟩
      · intro p hp q hq h1
        obtain ⟨hp1, hfp⟩ := filterMap_key_mem (fun a r h => (hkey a r h).1) ids p hp
        obtain ⟨hq1, hfq⟩ := filterMap_key_mem (fun a r h => (hkey a r h).1) ids q hq
        rw [h1] at hfp
        rw [hfp] at hfq
        cases hfq
        rfl

/-- Reduction of `BaileysRedisAdapter.setKeys` with a single category of all-truthy
values reduces to one `hset` of the prefixed fields, with no deletions. -/
theorem setKeys_single_truthy (st : RedisState) (sid ty : String) (es : JMap JsValue)
    (htr : ∀ p ∈ es, p.2.truthy = true) (hne : es.isEmpty = false) :
    BaileysRedisAdapter.setKeys st sid [(ty, es)] =
      st.hset (getRedisKeyWhatsapp sid).2
        (es.foldl (fun m p => jmSet m (ty ++ "-" ++ p.1) p.2) []) := by
  have aux : ∀ (es2 : JMap JsValue) (acc : RedisState × JMap JsValue),
      (∀ p ∈ es2, p.2.truthy = true) →
      es2.foldl
        (fun acc idv =>
          if idv.2.truthy then (acc.1, jmSet acc.2 (ty ++ "-" ++ idv.1) idv.2)
          else (acc.1.hdel (getRedisKeyWhatsapp sid).2 [ty ++ "-" ++ idv.1], acc.2)) acc =
        (acc.1, es2.foldl (fun m p => jmSet m (ty ++ "-" ++ p.1) p.2) acc.2) := by
    intro es2
    induction es2 with
    | nil => intro acc _; rfl
    | cons p rest ih =>
        intro acc htr2
        rw [List.foldl_cons, List.foldl_cons,
          if_pos (htr2 p (List.mem_cons_self _ _))]
        exact ih _ (fun q hq => htr2 q (List.mem_cons_of_mem _ hq))
  have hops : (es.foldl (fun m p => jmSet m (ty ++ "-" ++ p.1) p.2)
      ([] : JMap JsValue)).isEmpty = false :=
    foldl_jmSet_isEmpty_false (fun s => ty ++ "-" ++ s) es [] hne
  simp only [BaileysRedisAdapter.setKeys, List.foldl_cons, List.foldl_nil]
  rw [aux es (st, []) htr]
  simp only [hops, Bool.false_eq_true, if_false]

/-- Case characterization of `BaileysAuthStore.getKeys` with a configured
database adapter: no database roundtrip when nothing is missing; no Redis
write-back when the database returned nothing; otherwise one `setKeys`
warm-back of the fetched values. -/
theorem storeGetKeys_eq_cases (st : StoreState) (o : OrmState)
    (sessionId ty : String) (ids : List String) (horm : st.orm = some o) :
    BaileysAuthStore.getKeys st sessionId ty ids =
      (let R := BaileysRedisAdapter.getKeys st.redis sessionId ty ids
       let missing := ids.filter (fun id => ¬ jmHas R id)
       let D := BaileysOrmAdapter.getKeys o sessionId ty missing
       if missing.isEmpty then (st, R)
       else if D.isEmpty then (st, BaileysAuthStore.jsSpread R D)
       else ({ st with redis := BaileysRedisAdapter.setKeys st.redis sessionId [(ty, D)] },
             BaileysAuthStore.jsSpread R D)) := by
  simp only [BaileysAuthStore.getKeys, horm]
  by_cases hmiss : (ids.filter
      (fun id => ¬ jmHas (BaileysRedisAdapter.getKeys st.redis sessionId ty ids) id)).isEmpty
  · rw [if_neg (not_not_intro hmiss), if_pos hmiss]
  · rw [if_pos hmiss, if_neg hmiss]
    by_cases hD : (BaileysOrmAdapter.getKeys o sessionId ty
        (ids.filter
          (fun id => ¬ jmHas (BaileysRedisAdapter.getKeys st.redis sessionId ty ids) id))).isEmpty
    · rw [if_neg (not_not_intro hD), if_pos hD]
    · rw [if_pos hD, if_neg hD]

/-- Claim C8: `getFields` resolves each requested id from FastStore's
partial field store when present; the ids missing there are batch-fetched
from DurableStore; fetched values are written back into FastStore's field
hash without re-issuing a full `set` (the string-key side and the
database are untouched); the returned map holds exactly the ids resolved
in either store, and unresolved ids are simply absent, not an error. -/
theorem C8_getKeys_semantics
    (st : StoreState) (o : OrmState) (sessionId ty : String) (ids : List String)
    (horm : st.orm = some o) :
    (∀ id, jmGet (BaileysAuthStore.getKeys st sessionId ty ids).2 id =
        (jmGet (BaileysRedisAdapter.getKeys st.redis sessionId ty ids) id).or
          (jmGet (BaileysOrmAdapter.getKeys o sessionId ty
            (ids.filter (fun id =>
              ¬ jmHas (BaileysRedisAdapter.getKeys st.redis sessionId ty ids) id))) id)) ∧
    (BaileysAuthStore.getKeys st sessionId ty ids).1.redis.kv = st.redis.kv ∧
    (BaileysAuthStore.getKeys st sessionId ty ids).1.orm = st.orm ∧
    (∀ id, jmHas (BaileysOrmAdapter.getKeys o sessionId ty
          (ids.filter (fun id =>
            ¬ jmHas (BaileysRedisAdapter.getKeys st.redis sessionId ty ids) id))) id = true →
        RedisState.hget (BaileysAuthStore.getKeys st sessionId ty ids).1.redis
          (getRedisKeyWhatsapp sessionId).2 (ty ++ "-" ++ id) =
          jmGet (BaileysOrmAdapter.getKeys o sessionId ty
            (ids.filter (fun id =>
              ¬ jmHas (BaileysRedisAdapter.getKeys st.redis sessionId ty ids) id))) id) := by
  have hout := storeGetKeys_eq_cases st o sessionId ty ids horm
  simp only [] at hout
  have hDspec := ormGetKeys_mem_spec o sessionId ty
    (ids.filter (fun id =>
      ¬ jmHas (BaileysRedisAdapter.getKeys st.redis sessionId ty ids) id))
  have hDdisj : ∀ q ∈ BaileysOrmAdapter.getKeys o sessionId ty
      (ids.filter (fun id =>
        ¬ jmHas (BaileysRedisAdapter.getKeys st.redis sessionId ty ids) id)),
      jmHas (BaileysRedisAdapter.getKeys st.redis sessionId ty ids) q.1 = false := by
    intro q hq
    have h1 := (hDspec.1 q hq).1
    have h2 := (List.mem_filter.mp h1).2
    simpa using h2
  have hspread : ∀ id, jmGet (BaileysAuthStore.jsSpread
      (BaileysRedisAdapter.getKeys st.redis sessionId ty ids)
      (BaileysOrmAdapter.getKeys o sessionId ty
        (ids.filter (fun id =>
          ¬ jmHas (BaileysRedisAdapter.getKeys st.redis sessionId ty ids) id)))) id =
      (jmGet (BaileysRedisAdapter.getKeys st.redis sessionId ty ids) id).or
        (jmGet (BaileysOrmAdapter.getKeys o sessionId ty
          (ids.filter (fun id =>
            ¬ jmHas (BaileysRedisAdapter.getKeys st.redis sessionId ty ids) id))) id) := by
    intro id
    rw [jsSpread_disjoint _ _ hDdisj, jmGet_append]
  by_cases hmiss : (ids.filter (fun id =>
      ¬ jmHas (BaileysRedisAdapter.getKeys st.redis sessionId ty ids) id)).isEmpty
  · -- nothing missing: no database roundtrip, state unchanged
    rw [if_pos hmiss] at hout
    have hmnil : (ids.filter (fun id =>
        ¬ jmHas (BaileysRedisAdapter.getKeys st.redis sessionId ty ids) id)) = [] :=
      List.isEmpty_iff.mp hmiss
    have hDnil : BaileysOrmAdapter.getKeys o sessionId ty
        (ids.filter (fun id =>
          ¬ jmHas (BaileysRedisAdapter.getKeys st.redis sessionId ty ids) id)) = [] := by
      rw [hmnil]
      exact ormGetKeys_nil o sessionId ty
    refine ⟨?_, ?_, ?_, ?_⟩
    · intro id
      rw [hout, hDnil]
      cases jmGet (BaileysRedisAdapter.getKeys st.redis sessionId ty ids) id <;> rfl
    · rw [hout]
    · rw [hout]
    · intro id hhas
      rw [hDnil] at hhas
      simp [jmHas, jmGet] at hhas
  · by_cases hD : (BaileysOrmAdapter.getKeys o sessionId ty
        (ids.filter (fun id =>
          ¬ jmHas (BaileysRedisAdapter.getKeys st.redis sessionId ty ids) id))).isEmpty
    · -- database had nothing: no warm-back
      rw [if_neg hmiss, if_pos hD] at hout
      have hDnil : BaileysOrmAdapter.getKeys o sessionId ty
          (ids.filter (fun id =>
            ¬ jmHas (BaileysRedisAdapter.getKeys st.redis sessionId ty ids) id)) = [] :=
        List.isEmpty_iff.mp hD
      refine ⟨?_, ?_, ?_, ?_⟩
      · intro id
        rw [hout]
        exact hspread id
      · rw [hout]
      · rw [hout]
      · intro id hhas
        rw [hDnil] at hhas
        simp [jmHas, jmGet] at hhas
    · -- values fetched: warm-back via one hash write
      rw [if_neg hmiss, if_neg hD] at hout
      have hDtruthy : ∀ p ∈ BaileysOrmAdapter.getKeys o sessionId ty
          (ids.filter (fun id =>
            ¬ jmHas (BaileysRedisAdapter.getKeys st.redis sessionId ty ids) id)),
          p.2.truthy = true := fun p hp => (hDspec.1 p hp).2
      have hDne : (BaileysOrmAdapter.getKeys o sessionId ty
          (ids.filter (fun id =>
            ¬ jmHas (BaileysRedisAdapter.getKeys st.redis sessionId ty ids) id))).isEmpty =
          false := by
        cases hh : (BaileysOrmAdapter.getKeys o sessionId ty
            (ids.filter (fun id =>
              ¬ jmHas (BaileysRedisAdapter.getKeys st.redis sessionId ty ids) id))).isEmpty
        · rfl
        · exact absurd hh hD
      have hset := setKeys_single_truthy st.redis sessionId ty
        (BaileysOrmAdapter.getKeys o sessionId ty
          (ids.filter (fun id =>
            ¬ jmHas (BaileysRedisAdapter.getKeys st.redis sessionId ty ids) id)))
        hDtruthy hDne
      refine ⟨?_, ?_, ?_, ?_⟩
      · intro id
        rw [hout]
        exact hspread id
      · rw [hout]
        simp only [hset]
        rfl
      · rw [hout]
      · intro id hhas
        rw [hout]
        simp only [hset]
        -- compute the hash after the single hset
        unfold RedisState.hget RedisState.hset RedisState.hgetall
        simp only [jmGet_jmSet_self, Option.getD_some]
        -- outer fold (merging the ops into the existing hash)
        have houter : jmGet
            ((BaileysOrmAdapter.getKeys o sessionId ty
                (ids.filter (fun id =>
                  ¬ jmHas (BaileysRedisAdapter.getKeys st.redis sessionId ty ids) id))
              |>.foldl (fun m p => jmSet m (ty ++ "-" ++ p.1) p.2) []).foldl
              (fun h p => jmSet h p.1 p.2)
              ((jmGet st.redis.hs (getRedisKeyWhatsapp sessionId).2).getD []))
            (ty ++ "-" ++ id) =
            (jmGet (BaileysOrmAdapter.getKeys o sessionId ty
                (ids.filter (fun id =>
                  ¬ jmHas (BaileysRedisAdapter.getKeys st.redis sessionId ty ids) id))
              |>.foldl (fun m p => jmSet m (ty ++ "-" ++ p.1) p.2) [])
              (ty ++ "-" ++ id)).or
              (jmGet ((jmGet st.redis.hs (getRedisKeyWhatsapp sessionId).2).getD [])
                (ty ++ "-" ++ id)) := by
          have hnodup : (((BaileysOrmAdapter.getKeys o sessionId ty
              (ids.filter (fun id =>
                ¬ jmHas (BaileysRedisAdapter.getKeys st.redis sessionId ty ids) id))
              |>.foldl (fun m p => jmSet m (ty ++ "-" ++ p.1) p.2) [])).map (·.1)).Nodup :=
            foldl_jmSet_keys_nodup (fun s => ty ++ "-" ++ s) _ [] (by simp)
          have hfun2 : ∀ p ∈ (BaileysOrmAdapter.getKeys o sessionId ty
              (ids.filter (fun id =>
                ¬ jmHas (BaileysRedisAdapter.getKeys st.redis sessionId ty ids) id))
              |>.foldl (fun m p => jmSet m (ty ++ "-" ++ p.1) p.2) []),
              ∀ q ∈ (BaileysOrmAdapter.getKeys o sessionId ty
                (ids.filter (fun id =>
                  ¬ jmHas (BaileysRedisAdapter.getKeys st.redis sessionId ty ids) id))
                |>.foldl (fun m p => jmSet m (ty ++ "-" ++ p.1) p.2) []),
              p.1 = q.1 → p.2 = q.2 := by
            intro p hp q hq h1
            have := List.inj_on_of_nodup_map hnodup hp hq h1
            rw [this]
          exact jmGet_foldl_jmSet_key (fun s => s) (fun a b h => h) _ hfun2 _ (ty ++ "-" ++ id)
        rw [houter]
        have hinner := jmGet_foldl_jmSet_key (fun s => ty ++ "-" ++ s)
          (fun a b h => string_append_cancel_left h)
          (BaileysOrmAdapter.getKeys o sessionId ty
            (ids.filter (fun id =>
              ¬ jmHas (BaileysRedisAdapter.getKeys st.redis sessionId ty ids) id)))
          hDspec.2 [] id
        rw [hinner]
        obtain ⟨v, hv⟩ := Option.isSome_iff_exists.mp (by rw [← jmHas]; exact hhas)
        rw [hv]
        rfl

/-- Database fixture for the C8 witness: holds field `f-2`. -/
def ormC8 : OrmState :=
  { rows := [("s", { creds := none, keys := some [("f-2", .vStr "v2")] })] }

/-- Store fixture for the C8 witness: Redis holds field `f-1`, the
database holds `f-2`, and id `9` resolves nowhere. -/
def storeC8 : StoreState :=
  { redis := { kv := [("wa:auth:s:creds", .vStr "c")],
               hs := [("wa:auth:s:keys", [("f-1", .vStr "v1")])] },
    orm := some ormC8 }

/-- Witness for C8 at a concrete three-id lookup. -/
theorem C8_getKeys_semantics_witness :
    (∀ id, jmGet (BaileysAuthStore.getKeys storeC8 "s" "f" ["1", "2", "9"]).2 id =
        (jmGet (BaileysRedisAdapter.getKeys storeC8.redis "s" "f" ["1", "2", "9"]) id).or
          (jmGet (BaileysOrmAdapter.getKeys ormC8 "s" "f"
            (["1", "2", "9"].filter (fun id =>
              ¬ jmHas (BaileysRedisAdapter.getKeys storeC8.redis "s" "f" ["1", "2", "9"]) id))) id)) ∧
    (BaileysAuthStore.getKeys storeC8 "s" "f" ["1", "2", "9"]).1.redis.kv = storeC8.redis.kv ∧
    (BaileysAuthStore.getKeys storeC8 "s" "f" ["1", "2", "9"]).1.orm = storeC8.orm ∧
    (∀ id, jmHas (BaileysOrmAdapter.getKeys ormC8 "s" "f"
          (["1", "2", "9"].filter (fun id =>
            ¬ jmHas (BaileysRedisAdapter.getKeys storeC8.redis "s" "f" ["1", "2", "9"]) id))) id = true →
        RedisState.hget (BaileysAuthStore.getKeys storeC8 "s" "f" ["1", "2", "9"]).1.redis
          (getRedisKeyWhatsapp "s").2 ("f" ++ "-" ++ id) =
          jmGet (BaileysOrmAdapter.getKeys ormC8 "s" "f"
            (["1", "2", "9"].filter (fun id =>
              ¬ jmHas (BaileysRedisAdapter.getKeys storeC8.redis "s" "f" ["1", "2", "9"]) id))) id) :=
  C8_getKeys_semantics storeC8 ormC8 "s" "f" ["1", "2", "9"] rfl

/-- Redis fixture for C1: the session record lives under the adapter's
key names `wa:auth:s:creds` / `wa:auth:s:keys`. -/
def redisC1 : RedisState :=
  { kv := [("wa:auth:s:creds", .vStr "c")],
    hs := [("wa:auth:s:keys", [("f-1", .vStr "v")])] }

/-- Tracker fixture for C1: session `s`, stale for more than 7 days. -/
def mdC1 : JMap SessionAccessMetadata :=
  [("s", { sessionId := "s", lastAccess := 0, accessCount := 1, estimatedSize := 0 })]

/-- Claim C1, evaluated on the code at the failing input: a sweep at time
604800001 ms evicts session `s` (its tracker entry is removed), yet the
session's Record and field map are still fully present in FastStore —
`evictSession` deletes the keys `wa_creds:s` / `wa_keys:s` while the
adapters store under `wa:auth:s:creds` / `wa:auth:s:keys`, so the
adapter-visible record is unchanged and no fall-through to DurableStore
ever happens for it. -/
theorem C1_eviction_key_mismatch :
    (RedisMemoryManager.checkAndEvict defaultRedisMemoryConfig (fun _ => none)
        604800001 redisC1 mdC1).2 = [] ∧
    BaileysRedisAdapter.getCreds
        (RedisMemoryManager.checkAndEvict defaultRedisMemoryConfig (fun _ => none)
          604800001 redisC1 mdC1).1 "s" =
      BaileysRedisAdapter.getCreds redisC1 "s" ∧
    (BaileysRedisAdapter.getCreds redisC1 "s").isSome = true ∧
    RedisMemoryManager.getRedisKeys "s" ≠ getRedisKeyWhatsapp "s" :=
  ⟨rfl, rfl, rfl, by decide⟩

/-- Redis fixture for C6: only the manager-named key for session `s`. -/
def redisC6 : RedisState := { kv := [("wa_creds:s", .vStr "x")], hs := [] }

/-- Tracker fixture for C6: session `s`, stale for more than 7 days. -/
def mdC6 : JMap SessionAccessMetadata :=
  [("s", { sessionId := "s", lastAccess := 0, accessCount := 1, estimatedSize := 0 })]

/-- Counterexample to claim C6: with every memory query failing, the
sweep does not exit early — the inactivity sweep still runs and evicts
the stale session (tracker entry removed and its Redis key deleted). -/
theorem C6_counterexample :
    (RedisMemoryManager.checkAndEvict defaultRedisMemoryConfig (fun _ => none)
        604800001 redisC6 mdC6).2 = [] ∧
    (RedisMemoryManager.checkAndEvict defaultRedisMemoryConfig (fun _ => none)
        604800001 redisC6 mdC6).1.kv = [] :=
  ⟨rfl, rfl⟩

/-- Claim C6 as amended: when the sweep's memory query fails, the failure
is swallowed and usage reads as zero, so the LRU eviction step is skipped
(for any nonnegative threshold) — but the sweep does not exit early: the
inactivity sweep still runs unconditionally. -/
theorem C6_memfail_skips_lru_but_sweeps_inactive
    (config : RedisMemoryConfig) (memSeq : Nat → Option Nat) (now : Int)
    (redis : RedisState) (md : JMap SessionAccessMetadata)
    (hfail : memSeq 0 = none) (hth : 0 ≤ config.evictionThreshold) :
    RedisMemoryManager.checkAndEvict config memSeq now redis md =
      RedisMemoryManager.evictInactive config now redis md := by
  simp only [RedisMemoryManager.checkAndEvict, hfail, RedisMemoryManager.getMemoryUsage]
  rw [if_neg (not_lt.mpr hth)]

/-- Witness for the amended C6 at a concrete failing memory query. -/
theorem C6_memfail_skips_lru_but_sweeps_inactive_witness :
    ((fun _ : Nat => (none : Option Nat)) 0 = none) ∧
    ((0 : ℚ) ≤ defaultRedisMemoryConfig.evictionThreshold) ∧
    RedisMemoryManager.checkAndEvict defaultRedisMemoryConfig (fun _ => none)
        604800001 redisC6 mdC6 =
      RedisMemoryManager.evictInactive defaultRedisMemoryConfig 604800001 redisC6 mdC6 :=
  ⟨rfl, by decide,
    C6_memfail_skips_lru_but_sweeps_inactive defaultRedisMemoryConfig (fun _ => none)
      604800001 redisC6 mdC6 rfl (by decide)⟩

namespace RedisMemoryManager

/-- The number of evictions the loop performs when started at query index
`k` with `n` candidates left: the loop halts at the first index whose
fresh memory reading is at most `evictionThreshold - 10`, or after
exhausting the candidates. -/
def stopIndexFrom (config : RedisMemoryConfig) (memSeq : Nat → Option Nat) :
    Nat → Nat → Nat
  | _, 0 => 0
  | k, n + 1 =>
      if (getMemoryUsage config (memSeq k)).percentUsed ≤ config.evictionThreshold - 10 then
        0
      else
        1 + stopIndexFrom config memSeq (k + 1) n

/-- The eviction loop evicts exactly the prefix of its candidate list up
to the halting index, threading the state through `evictSession`. -/
theorem evictLoop_eq_take (config : RedisMemoryConfig) (memSeq : Nat → Option Nat) :
    ∀ (l : List SessionAccessMetadata) (k : Nat)
      (s : RedisState × JMap SessionAccessMetadata),
      evictLoop config memSeq l k s =
        (l.take (stopIndexFrom config memSeq k l.length)).foldl
          (fun s2 m => evictSession s2.1 s2.2 m.sessionId) s := by
  intro l
  induction l with
  | nil => intro k s; rfl
  | cons m rest ih =>
      intro k s
      by_cases hc : (getMemoryUsage config (memSeq k)).percentUsed ≤
          config.evictionThreshold - 10
      · simp only [evictLoop, List.length_cons, stopIndexFrom, if_pos hc, List.take_zero,
          List.foldl_nil]
      · simp only [evictLoop, List.length_cons, stopIndexFrom, if_neg hc]
        rw [ih (k + 1) (evictSession s.1 s.2 m.sessionId)]
        rw [Nat.add_comm 1 (stopIndexFrom config memSeq (k + 1) rest.length)]
        rw [List.take_succ_cons, List.foldl_cons]

end RedisMemoryManager

/-- Claim C3 as amended: when the initial memory reading is above the
threshold, the sweep's LRU step takes the tracker snapshot sorted
ascending by `lastAccess` alone — ties keep the snapshot's insertion
order (stable sort); there is no accessCount/key tie-break — and evicts
exactly the prefix of that order up to the first fresh memory re-check
at or below `evictionThreshold - 10` (or the whole list), after which
the inactivity sweep runs on the resulting state. -/
theorem C3_lru_eviction_semantics
    (config : RedisMemoryConfig) (memSeq : Nat → Option Nat) (now : Int)
    (redis : RedisState) (md : JMap SessionAccessMetadata)
    (htrig : (RedisMemoryManager.getMemoryUsage config (memSeq 0)).percentUsed >
      config.evictionThreshold) :
    RedisMemoryManager.checkAndEvict config memSeq now redis md =
      (let sorted := RedisMemoryManager.sortedSessions md
       let s1 := (sorted.take (RedisMemoryManager.stopIndexFrom config
           (fun k => memSeq (k + 1)) 0 sorted.length)).foldl
         (fun s2 m => RedisMemoryManager.evictSession s2.1 s2.2 m.sessionId) (redis, md)
       RedisMemoryManager.evictInactive config now s1.1 s1.2) := by
  simp only [RedisMemoryManager.checkAndEvict]
  rw [if_pos htrig]
  unfold RedisMemoryManager.evictLRU
  rw [RedisMemoryManager.evictLoop_eq_take]

/-- Eviction config fixture for C3: 1000 bytes max, 80 percent threshold. -/
def cfgC3 : RedisMemoryConfig :=
  { maxMemoryBytes := 1000, evictionThreshold := 80,
    ttlInactivity := 604800, checkIntervalMs := 300000 }

/-- Memory readings for C3: 900 bytes (90 percent) at the first query,
0 afterwards. -/
def memSeqC3 : Nat → Option Nat := fun k => if k = 0 then some 900 else some 0

/-- Session `a`: inserted first, same `lastAccess` as `b`, higher
`accessCount`. -/
def maC3 : SessionAccessMetadata :=
  { sessionId := "a", lastAccess := 5, accessCount := 2, estimatedSize := 0 }

/-- Session `b`: inserted second, same `lastAccess` as `a`, lower
`accessCount`. -/
def mbC3 : SessionAccessMetadata :=
  { sessionId := "b", lastAccess := 5, accessCount := 1, estimatedSize := 0 }

/-- Tracker fixture for C3 with the tie `a` before `b`. -/
def mdC3 : JMap SessionAccessMetadata := [("a", maC3), ("b", mbC3)]

/-- Empty Redis fixture for C3. -/
def redisC3 : RedisState := { kv := [], hs := [] }

/-- The 90-percent reading of the C3 fixture is above the threshold. -/
theorem c3TrigAux :
    (RedisMemoryManager.getMemoryUsage cfgC3 (memSeqC3 0)).percentUsed >
      cfgC3.evictionThreshold := by
  show ((900 : Nat) : ℚ) / 1000 * 100 > 80
  norm_num

/-- Counterexample to claim C3: on a `lastAccess` tie the code's eviction
order is the snapshot's insertion order (stable sort by `lastAccess`
alone), not the spec's accessCount-then-key tie-break — here the code
evicts `a` (keeping `b`) while the claim's ordering would evict `b`
(keeping `a`). -/
theorem C3_counterexample :
    (RedisMemoryManager.evictLRU cfgC3 memSeqC3 redisC3 mdC3).2 = [("b", mbC3)] ∧
    (specEvictLRU cfgC3 memSeqC3 redisC3 mdC3).2 = [("a", maC3)] ∧
    (RedisMemoryManager.evictLRU cfgC3 memSeqC3 redisC3 mdC3).2 ≠
      (specEvictLRU cfgC3 memSeqC3 redisC3 mdC3).2 := by
  have h0 : ¬ ((RedisMemoryManager.getMemoryUsage cfgC3 (memSeqC3 0)).percentUsed ≤
      cfgC3.evictionThreshold - 10) := by
    show ¬ (((900 : Nat) : ℚ) / 1000 * 100 ≤ 80 - 10)
    norm_num
  have h1 : (RedisMemoryManager.getMemoryUsage cfgC3 (memSeqC3 (0 + 1))).percentUsed ≤
      cfgC3.evictionThreshold - 10 := by
    show ((0 : Nat) : ℚ) / 1000 * 100 ≤ 80 - 10
    norm_num
  have hcode : (RedisMemoryManager.evictLRU cfgC3 memSeqC3 redisC3 mdC3).2 = [("b", mbC3)] := by
    show (RedisMemoryManager.evictLoop cfgC3 memSeqC3 [maC3, mbC3] 0 (redisC3, mdC3)).2 =
      [("b", mbC3)]
    simp only [RedisMemoryManager.evictLoop]
    rw [if_neg h0, if_pos h1]
    rfl
  have hspec : (specEvictLRU cfgC3 memSeqC3 redisC3 mdC3).2 = [("a", maC3)] := by
    show (RedisMemoryManager.evictLoop cfgC3 memSeqC3 [mbC3, maC3] 0 (redisC3, mdC3)).2 =
      [("a", maC3)]
    simp only [RedisMemoryManager.evictLoop]
    rw [if_neg h0, if_pos h1]
    rfl
  refine ⟨hcode, hspec, ?_⟩
  rw [hcode, hspec]
  decide

/-- Witness for the amended C3 at the concrete tie fixture. -/
theorem C3_lru_eviction_semantics_witness :
    ((RedisMemoryManager.getMemoryUsage cfgC3 (memSeqC3 0)).percentUsed >
      cfgC3.evictionThreshold) ∧
    RedisMemoryManager.checkAndEvict cfgC3 memSeqC3 0 redisC3 mdC3 =
      (let sorted := RedisMemoryManager.sortedSessions mdC3
       let s1 := (sorted.take (RedisMemoryManager.stopIndexFrom cfgC3
           (fun k => memSeqC3 (k + 1)) 0 sorted.length)).foldl
         (fun s2 m => RedisMemoryManager.evictSession s2.1 s2.2 m.sessionId)
         (redisC3, mdC3)
       RedisMemoryManager.evictInactive cfgC3 0 s1.1 s1.2) :=
  ⟨c3TrigAux, C3_lru_eviction_semantics cfgC3 memSeqC3 0 redisC3 mdC3 c3TrigAux⟩
